import Mathlib

/-!
Verification of the timeline-driven frame compositor of the
make-video-from-image repository.  The definitions below are a shallow
embedding, over exact rationals, of the hook in the source file
(useVideoGenerator): the timeline window formulas, the segment scan of
drawFrame, the crossfade alpha computation, the fit / Ken Burns geometry of
applyKenBurnsAndDraw, and the fixed-step frame scheduler of generateVideo.
-/

/-- The pan directions of the PanDirection union in types.ts. -/
inductive PanDirection
  | random
  | zoomIn
  | zoomOut
  | panLeft
  | panRight
  | panUp
  | panDown
deriving DecidableEq

/-- The imageFit field values of EffectSettings in types.ts. -/
inductive ImageFit
  | cover
  | contain
deriving DecidableEq

/-- EffectSettings from types.ts with the nested kenBurns record flattened. -/
structure EffectSettings where
  durationPerImage : ℚ
  transitionDuration : ℚ
  kenBurnsEnabled : Bool
  zoomFactor : ℚ
  panDirection : PanDirection
  videoWidth : ℚ
  videoHeight : ℚ
  imageFit : ImageFit
deriving DecidableEq

/-- The fields of UploadedImage (types.ts) that the compositor reads. -/
structure Img where
  id : String
  width : ℚ
  height : ℚ
deriving DecidableEq

/-- A rectangle given by its top-left corner and its size, as used for the
source and destination rectangles of drawImage. -/
structure Rect where
  x : ℚ
  y : ℚ
  w : ℚ
  h : ℚ
deriving DecidableEq

/-- imageDisplayStartTime of image i (drawFrame, line 146):
i * durationPerImage - (i > 0 ? transitionDuration : 0). -/
def displayStart (s : EffectSettings) (i : ℕ) : ℚ :=
  (i : ℚ) * s.durationPerImage - (if 0 < i then s.transitionDuration else 0)

/-- imageDisplayEndTime of image i among N images (drawFrame, line 147):
start + durationPerImage + (i < N - 1 ? transitionDuration : 0). -/
def displayEnd (s : EffectSettings) (N i : ℕ) : ℚ :=
  displayStart s i + s.durationPerImage +
    (if i < N - 1 then s.transitionDuration else 0)

/-- The half-open display window test of drawFrame, line 149:
displayStart <= t < displayEnd. -/
def inWindow (s : EffectSettings) (N : ℕ) (t : ℚ) (i : ℕ) : Prop :=
  displayStart s i ≤ t ∧ t < displayEnd s N i

instance (s : EffectSettings) (N : ℕ) (t : ℚ) (i : ℕ) :
    Decidable (inWindow s N t i) :=
  inferInstanceAs (Decidable (displayStart s i ≤ t ∧ t < displayEnd s N i))

/-- The for loop of drawFrame (lines 145-154): starting at index i with the
given fuel, return the first index whose window contains t together with
timeIntoCurrentImage = t - displayStart. -/
def scanSeg (s : EffectSettings) (N : ℕ) (t : ℚ) : ℕ → ℕ → Option (ℕ × ℚ)
  | 0, _ => none
  | fuel + 1, i =>
    if inWindow s N t i then some (i, t - displayStart s i)
    else scanSeg s N t fuel (i + 1)

/-- The full segment scan over indices 0 .. N-1. -/
def findSegment (s : EffectSettings) (N : ℕ) (t : ℚ) : Option (ℕ × ℚ) :=
  scanSeg s N t N 0

/-- totalDuration computed in generateVideo (lines 114-117):
N * durationPerImage, plus (N - 1) * transitionDuration when N > 1. -/
def totalDuration (s : EffectSettings) (N : ℕ) : ℚ :=
  (N : ℚ) * s.durationPerImage +
    (if 1 < N then ((N - 1 : ℕ) : ℚ) * s.transitionDuration else 0)

/-- Result of mapping a global time to a frame state (drawFrame, 141-165). -/
inductive FrameResolve
  | endOfTimeline
  | frame (idx : ℕ) (timeInto : ℚ)
deriving DecidableEq

/-- drawFrame lines 141-165: first matching segment; if none matches and
t >= totalDuration the timeline ends; otherwise clamp to the last image at
timeIntoCurrentImage = durationPerImage. -/
def resolve (s : EffectSettings) (N : ℕ) (t : ℚ) : FrameResolve :=
  match findSegment s N t with
  | some (i, ti) => .frame i ti
  | none =>
    if totalDuration s N ≤ t then .endOfTimeline
    else .frame (N - 1) s.durationPerImage

/-- transitionProgress of drawFrame (lines 176-180). -/
def transitionProgress (s : EffectSettings) (i : ℕ) (ti : ℚ) : ℚ :=
  if s.durationPerImage < ti then
    (ti - s.durationPerImage) / s.transitionDuration
  else if ti < s.transitionDuration ∧ 0 < i then
    ti / s.transitionDuration
  else 1

/-- The globalAlpha at which the current image is drawn (lines 173-187). -/
def currentAlpha (s : EffectSettings) (N i : ℕ) (ti : ℚ) : ℚ :=
  if s.durationPerImage < ti ∧ i < N - 1 then
    1 - min 1 (transitionProgress s i ti)
  else if ti < s.transitionDuration ∧ 0 < i then
    min 1 (transitionProgress s i ti)
  else 1

/-- What one drawFrame tick draws (lines 168-201): the current image index,
its alpha and progress, and, while fading out, the next image index with the
alpha it is drawn at (its Ken Burns progress being 0, line 199). -/
structure TickDraw where
  idx : ℕ
  alpha : ℚ
  progress : ℚ
  next : Option (ℕ × ℚ)
deriving DecidableEq

/-- One tick of drawFrame at global time t (seconds): none when the end
condition of line 156 fires, otherwise the draw data of lines 168-201. -/
def renderTick (s : EffectSettings) (N : ℕ) (t : ℚ) : Option TickDraw :=
  match resolve s N t with
  | .endOfTimeline => none
  | .frame i ti =>
    some { idx := i
           alpha := currentAlpha s N i ti
           progress := min 1 (ti / s.durationPerImage)
           next :=
             if s.durationPerImage < ti ∧ i < N - 1 then
               some (i + 1, min 1 (transitionProgress s i ti))
             else none }

/-- canvasAspect = canvas.width / canvas.height (line 235). -/
def canvasAspect (s : EffectSettings) : ℚ :=
  s.videoWidth / s.videoHeight

/-- imgAspect = img.width / img.height (line 236). -/
def imgAspect (img : Img) : ℚ :=
  img.width / img.height

/-- The source rectangle of the cover / contain fit (lines 238-258): cover
crops the source around its center to match the canvas aspect; contain keeps
the full image as source. -/
def fitSourceRect (img : Img) (s : EffectSettings) : Rect :=
  if s.imageFit = ImageFit.cover then
    if canvasAspect s < imgAspect img then
      { x := (img.width - img.height * canvasAspect s) / 2
        y := 0
        w := img.height * canvasAspect s
        h := img.height }
    else
      { x := 0
        y := (img.height - img.width / canvasAspect s) / 2
        w := img.width
        h := img.width / canvasAspect s }
  else
    { x := 0, y := 0, w := img.width, h := img.height }

/-- The destination rectangle of the cover / contain fit (lines 233-258):
cover fills the whole canvas; contain letterboxes or pillarboxes. -/
def fitDestRect (img : Img) (s : EffectSettings) : Rect :=
  if s.imageFit = ImageFit.cover then
    { x := 0, y := 0, w := s.videoWidth, h := s.videoHeight }
  else if canvasAspect s < imgAspect img then
    { x := 0
      y := (s.videoHeight - s.videoWidth / imgAspect img) / 2
      w := s.videoWidth
      h := s.videoWidth / imgAspect img }
  else
    { x := (s.videoWidth - s.videoHeight * imgAspect img) / 2
      y := 0
      w := s.videoHeight * imgAspect img
      h := s.videoHeight }

/-- The zoom of line 261: 1 + (zoomFactor - 1) * progressInImage, computed
the same way for every pan direction. -/
def kbZoom (s : EffectSettings) (p : ℚ) : ℚ :=
  1 + (s.zoomFactor - 1) * p

/-- offsetX of lines 274-284: nonzero only for the guarded fixed pan
directions, a shift of up to maxPan scaled by progress. -/
def kbOffsetX (s : EffectSettings) (maxPan p : ℚ) : ℚ :=
  if s.panDirection ≠ PanDirection.random ∧
      s.panDirection ≠ PanDirection.zoomIn ∧
      s.panDirection ≠ PanDirection.zoomOut then
    if s.panDirection = PanDirection.panLeft then -(maxPan * p)
    else if s.panDirection = PanDirection.panRight then maxPan * p
    else 0
  else 0

/-- offsetY of lines 275-284, the vertical counterpart of kbOffsetX. -/
def kbOffsetY (s : EffectSettings) (maxPan p : ℚ) : ℚ :=
  if s.panDirection ≠ PanDirection.random ∧
      s.panDirection ≠ PanDirection.zoomIn ∧
      s.panDirection ≠ PanDirection.zoomOut then
    if s.panDirection = PanDirection.panUp then -(maxPan * p)
    else if s.panDirection = PanDirection.panDown then maxPan * p
    else 0
  else 0

/-- Lines 260-292: when Ken Burns is enabled the source rectangle is shrunk
by the zoom around its center and shifted by the pan offsets, with
maxPanOffset = 0.1 * sWidth (line 273); otherwise it is left unchanged. -/
def kenBurnsSourceRect (src : Rect) (s : EffectSettings) (p : ℚ) : Rect :=
  if s.kenBurnsEnabled then
    { x := src.x + (src.w - src.w / kbZoom s p) / 2 +
        kbOffsetX s (1 / 10 * src.w) p
      y := src.y + (src.h - src.h / kbZoom s p) / 2 +
        kbOffsetY s (1 / 10 * src.w) p
      w := src.w / kbZoom s p
      h := src.h / kbZoom s p }
  else src

/-- The source rectangle passed to drawImage (line 294) for an image at the
given progress: the fit source rectangle adjusted by Ken Burns. -/
def drawSourceRect (img : Img) (s : EffectSettings) (p : ℚ) : Rect :=
  kenBurnsSourceRect (fitSourceRect img s) s p

/-- frameDuration = 1000 / 30 milliseconds (line 120). -/
def frameDuration : ℚ := 1000 / 30

/-- The drawFrame loop of lines 131-217 counted in rendered frames, with
explicit fuel: at overallTime (milliseconds) the tick resolves
overallTime / 1000; the end condition of line 156 renders nothing, otherwise
one frame is rendered and the loop continues exactly when
overallTime + frameDuration < totalDuration * 1000 (line 208). -/
def runFrames (s : EffectSettings) (N : ℕ) : ℕ → ℚ → ℕ
  | 0, _ => 0
  | fuel + 1, overallTime =>
    if resolve s N (overallTime / 1000) = FrameResolve.endOfTimeline then 0
    else if overallTime + frameDuration < totalDuration s N * 1000 then
      1 + runFrames s N fuel (overallTime + frameDuration)
    else 1

/-- The number of nominal frame steps that fit before totalDuration:
the count of naturals k with k * frameDuration < totalDuration * 1000. -/
def nominalFrameCount (s : EffectSettings) (N : ℕ) : ℕ :=
  Nat.ceil ((30 : ℚ) * totalDuration s N)

/-- Outcome of starting a generation: either a synchronous rejection before
any resource is allocated, or a running session with an allocated canvas of
the given size and recorder started. -/
inductive StartOutcome
  | precondRejected (msg : String)
  | running (canvasWidth canvasHeight totalDur : ℚ)
deriving DecidableEq

/-- generateVideo lines 50-120: the only checks made before the canvas,
stream and recorder are allocated are images.length == 0 and the
availability of MediaRecorder; afterwards the session is running. -/
def generateVideoStart (imgs : List Img) (s : EffectSettings)
    (mediaRecorderAvailable : Bool) : StartOutcome :=
  if imgs.length = 0 then
    StartOutcome.precondRejected "No images selected."
  else if mediaRecorderAvailable = false then
    StartOutcome.precondRejected "MediaRecorder API not supported in this browser."
  else
    StartOutcome.running s.videoWidth s.videoHeight (totalDuration s imgs.length)

/-! Concrete inputs used by witnesses and counterexamples. -/

/-- A square 100 by 100 test image. -/
def exImg : Img := { id := "img-1", width := 100, height := 100 }

/-- A second test image with another id but the same pixel size. -/
def exImg2 : Img := { id := "img-2", width := 100, height := 100 }

/-- Baseline settings: 5 s per image, 1 s transitions, Ken Burns enabled at
zoom factor 2, 100 by 100 output, cover fit. -/
def exS : EffectSettings :=
  { durationPerImage := 5
    transitionDuration := 1
    kenBurnsEnabled := true
    zoomFactor := 2
    panDirection := PanDirection.random
    videoWidth := 100
    videoHeight := 100
    imageFit := ImageFit.cover }

/-- The baseline settings with the pan direction replaced. -/
def dirS (d : PanDirection) : EffectSettings :=
  { exS with panDirection := d }

/-- Settings for the scheduler witness: one second per image, no
transitions. -/
def wS : EffectSettings :=
  { exS with durationPerImage := 1, transitionDuration := 0 }

/-- Settings violating the spec preconditions: zero durations and zero
output dimensions. -/
def badS : EffectSettings :=
  { exS with durationPerImage := 0, transitionDuration := 0,
             videoWidth := 0, videoHeight := 0 }

/-- Contain fit with a pan to the left and zoom factor 11/10, used to show
that the adjusted source rectangle escapes the image bounds. -/
def panLeftContainS : EffectSettings :=
  { exS with panDirection := PanDirection.panLeft,
             zoomFactor := 11 / 10,
             imageFit := ImageFit.contain }

/-! ## Lemmas about the segment scan -/

theorem scanSeg_eq_none (s : EffectSettings) (N : ℕ) (t : ℚ) :
    ∀ fuel i, (∀ j, i ≤ j → j < i + fuel → ¬ inWindow s N t j) →
      scanSeg s N t fuel i = none := by
  intro fuel
  induction fuel with
  | zero => intro i _; rfl
  | succ m ih =>
    intro i h
    simp only [scanSeg]
    rw [if_neg (h i le_rfl (by omega))]
    exact ih (i + 1) fun j hj1 hj2 => h j (by omega) (by omega)

theorem scanSeg_eq_some (s : EffectSettings) (N : ℕ) (t : ℚ) :
    ∀ fuel i k, i ≤ k → k < i + fuel → inWindow s N t k →
      (∀ j, i ≤ j → j < k → ¬ inWindow s N t j) →
      scanSeg s N t fuel i = some (k, t - displayStart s k) := by
  intro fuel
  induction fuel with
  | zero => intro i k h1 h2 _ _; omega
  | succ m ih =>
    intro i k h1 h2 hk hfirst
    simp only [scanSeg]
    by_cases hi : inWindow s N t i
    · have hik : i = k := by
        rcases Nat.lt_or_ge i k with hlt | hge
        · exact absurd hi (hfirst i le_rfl hlt)
        · omega
      subst hik
      rw [if_pos hi]
    · rw [if_neg hi]
      have hik : i < k := by
        rcases Nat.lt_or_ge i k with hlt | hge
        · exact hlt
        · have : i = k := by omega
          subst this
          exact absurd hk hi
      exact ih (i + 1) k (by omega) (by omega) hk
        (fun j hj1 hj2 => hfirst j (by omega) hj2)

theorem findSegment_eq_some (s : EffectSettings) (N : ℕ) (t : ℚ) (k : ℕ)
    (hk : k < N) (hwin : inWindow s N t k)
    (hfirst : ∀ j, j < k → ¬ inWindow s N t j) :
    findSegment s N t = some (k, t - displayStart s k) :=
  scanSeg_eq_some s N t N 0 k (Nat.zero_le k) (by omega) hwin
    (fun j _ hj2 => hfirst j hj2)

theorem findSegment_eq_none (s : EffectSettings) (N : ℕ) (t : ℚ)
    (h : ∀ i, i < N → ¬ inWindow s N t i) :
    findSegment s N t = none :=
  scanSeg_eq_none s N t N 0 (fun j _ hj2 => h j (by omega))

/-! ## Claim theorems -/

/-- C5 (confirmed): mapping a global elapsed time to a frame state scans the
segments in index order and picks the first whose half-open window contains
t; when none matches and t is at or past totalDuration the timeline ends;
when none matches below totalDuration the result is clamped to the last
image at timeInto = durationPerImage. -/
theorem c5_resolve_first_match (s : EffectSettings) (N : ℕ) (t : ℚ) :
    (∀ i, i < N → inWindow s N t i → (∀ j, j < i → ¬ inWindow s N t j) →
      resolve s N t = FrameResolve.frame i (t - displayStart s i)) ∧
    ((∀ i, i < N → ¬ inWindow s N t i) → totalDuration s N ≤ t →
      resolve s N t = FrameResolve.endOfTimeline) ∧
    ((∀ i, i < N → ¬ inWindow s N t i) → t < totalDuration s N →
      resolve s N t = FrameResolve.frame (N - 1) s.durationPerImage) := by
  refine ⟨?_, ?_, ?_⟩
  · intro i hiN hwin hfirst
    have hf := findSegment_eq_some s N t i hiN hwin hfirst
    simp [resolve, hf]
  · intro hno hge
    have hf := findSegment_eq_none s N t hno
    simp [resolve, hf, hge]
  · intro hno hlt
    have hf := findSegment_eq_none s N t hno
    simp [resolve, hf, not_le.mpr hlt]

theorem inWindow_exS_half : inWindow exS 2 (1 / 2) 0 := by
  constructor <;> norm_num [displayStart, displayEnd, exS]

theorem noWindow_exS_20 : ∀ i, i < 2 → ¬ inWindow exS 2 20 i := by
  intro i hi
  interval_cases i <;> rintro ⟨h1, h2⟩ <;>
    norm_num [displayStart, displayEnd, exS] at h2

theorem noWindow_exS_10 : ∀ i, i < 2 → ¬ inWindow exS 2 10 i := by
  intro i hi
  interval_cases i <;> rintro ⟨h1, h2⟩ <;>
    norm_num [displayStart, displayEnd, exS] at h2

theorem total_exS_le_20 : totalDuration exS 2 ≤ 20 := by
  norm_num [totalDuration, exS]

theorem lt_total_exS_10 : (10 : ℚ) < totalDuration exS 2 := by
  norm_num [totalDuration, exS]

/-- Witness for C5 at concrete inputs: a first match, the end of the
timeline, and the in-bounds clamp to the last image. -/
theorem c5_witness :
    resolve exS 2 (1 / 2) = FrameResolve.frame 0 (1 / 2 - displayStart exS 0) ∧
    resolve exS 2 20 = FrameResolve.endOfTimeline ∧
    resolve exS 2 10 = FrameResolve.frame 1 exS.durationPerImage :=
  ⟨(c5_resolve_first_match exS 2 (1 / 2)).1 0 (by omega) inWindow_exS_half
      (fun j hj => absurd hj (Nat.not_lt_zero j)),
   (c5_resolve_first_match exS 2 20).2.1 noWindow_exS_20 total_exS_le_20,
   (c5_resolve_first_match exS 2 10).2.2 noWindow_exS_10 lt_total_exS_10⟩

/-- C6 (confirmed): the computed total duration equals
N * durationPerImage + (N - 1) * transitionDuration for N at least 1, is 0
for N = 0, and generation with zero images is rejected. -/
theorem c6_totalDuration (s : EffectSettings) (N : ℕ) (hN : 1 ≤ N) :
    totalDuration s N =
      (N : ℚ) * s.durationPerImage + ((N : ℚ) - 1) * s.transitionDuration ∧
    totalDuration s 0 = 0 ∧
    generateVideoStart [] s true =
      StartOutcome.precondRejected "No images selected." := by
  refine ⟨?_, by simp [totalDuration], rfl⟩
  unfold totalDuration
  rcases Nat.lt_or_ge 1 N with h1 | h1
  · rw [if_pos h1]
    have hcast : ((N - 1 : ℕ) : ℚ) = (N : ℚ) - 1 := by
      push_cast [Nat.cast_sub hN]
      ring
    rw [hcast]
  · have hN1 : N = 1 := by omega
    subst hN1
    norm_num

/-- Witness for C6 with two images. -/
theorem c6_witness :
    totalDuration exS 2 =
      ((2 : ℕ) : ℚ) * exS.durationPerImage +
        (((2 : ℕ) : ℚ) - 1) * exS.transitionDuration ∧
    totalDuration exS 0 = 0 ∧
    generateVideoStart [] exS true =
      StartOutcome.precondRejected "No images selected." :=
  c6_totalDuration exS 2 (by omega)

/-- Counterexample to C7: settings with durationPerImage = 0, transition
equal to the duration, and zero output dimensions are not rejected; the
session still allocates and enters the running state. -/
theorem c7_counterexample :
    generateVideoStart [exImg] badS true = StartOutcome.running 0 0 0 ∧
    badS.durationPerImage ≤ 0 ∧
    badS.durationPerImage ≤ badS.transitionDuration ∧
    badS.videoWidth ≤ 0 ∧ badS.videoHeight ≤ 0 := by
  refine ⟨?_, by norm_num [badS, exS], by norm_num [badS, exS],
    by norm_num [badS, exS], by norm_num [badS, exS]⟩
  norm_num [generateVideoStart, badS, exS, totalDuration]

/-- C7 (corrected): the only synchronous precondition check is
images.length == 0 (plus availability of the recorder API); no setting is
validated, so any settings reach the running state with a nonempty image
list. -/
theorem c7_only_empty_check (imgs : List Img) (s : EffectSettings)
    (mr : Bool) (hmr : mr = true) :
    (imgs.length = 0 → generateVideoStart imgs s mr =
      StartOutcome.precondRejected "No images selected.") ∧
    (imgs.length ≠ 0 → generateVideoStart imgs s mr =
      StartOutcome.running s.videoWidth s.videoHeight
        (totalDuration s imgs.length)) := by
  subst hmr
  constructor <;> intro h <;> simp [generateVideoStart, h]

/-- Witness for C7: one image and invalid settings still start. -/
theorem c7_witness :
    generateVideoStart [exImg] badS true =
      StartOutcome.running badS.videoWidth badS.videoHeight
        (totalDuration badS [exImg].length) :=
  (c7_only_empty_check [exImg] badS true rfl).2 (by decide)

/-- C2 (confirmed): whenever a tick draws a next image during a fade, the
alpha of the current image and the alpha of the next image sum to exactly
one. -/
theorem c2_crossfade_alpha_sum (s : EffectSettings) (N : ℕ) (t : ℚ)
    (td : TickDraw) (j : ℕ) (a : ℚ)
    (h : renderTick s N t = some td) (hn : td.next = some (j, a)) :
    td.alpha + a = 1 := by
  unfold renderTick at h
  cases hr : resolve s N t with
  | endOfTimeline => rw [hr] at h; exact absurd h (by simp)
  | frame i ti =>
    rw [hr] at h
    have htd := Option.some.injEq _ _ ▸ h
    replace htd : td = _ := (Option.some.inj h).symm
    subst htd
    by_cases hc : s.durationPerImage < ti ∧ i < N - 1
    · simp only [hc, if_true, if_pos hc] at hn
      have ha : a = min 1 (transitionProgress s i ti) :=
        (Prod.mk.inj (Option.some.inj hn)).2.symm
      rw [ha]
      simp only [currentAlpha, if_pos hc]
      ring
    · rw [if_neg hc] at hn
      exact absurd hn (by simp)

theorem renderTick_exS_overlap :
    renderTick exS 2 (11 / 2) = some ⟨0, 1 / 2, 1, some (1, 1 / 2)⟩ := by
  have hwin : inWindow exS 2 (11 / 2) 0 := by
    constructor <;> norm_num [displayStart, displayEnd, exS]
  have hf := findSegment_eq_some exS 2 (11 / 2) 0 (by omega) hwin
    (fun j hj => absurd hj (Nat.not_lt_zero j))
  simp only [renderTick, resolve, hf]
  norm_num [currentAlpha, transitionProgress, displayStart, exS, min_def]

/-- Witness for C2 at t = 5.5 s with two images: alphas 1/2 and 1/2. -/
theorem c2_witness :
    (⟨0, 1 / 2, 1, some (1, 1 / 2)⟩ : TickDraw).alpha + 1 / 2 = 1 :=
  c2_crossfade_alpha_sum exS 2 (11 / 2) ⟨0, 1 / 2, 1, some (1, 1 / 2)⟩ 1
    (1 / 2) renderTick_exS_overlap rfl

/-- Counterexample to C3: with panDirection zoom-out and zoomFactor 2 the
code still applies zoom(0) = 1, not zoom(0) = zoomFactor; the source
rectangle keeps its full width instead of being halved. -/
theorem c3_counterexample :
    kbZoom (dirS PanDirection.zoomOut) 0 = 1 ∧
    (dirS PanDirection.zoomOut).zoomFactor = 2 ∧
    (kenBurnsSourceRect ⟨0, 0, 100, 100⟩ (dirS PanDirection.zoomOut) 0).w
      = 100 ∧
    (100 : ℚ) ≠ 100 / (dirS PanDirection.zoomOut).zoomFactor := by
  refine ⟨by norm_num [kbZoom, dirS, exS], rfl, ?_, by norm_num [dirS, exS]⟩
  norm_num [kenBurnsSourceRect, kbZoom, dirS, exS]

/-- C3 (corrected): the zoom is 1 + (zoomFactor - 1) * progress for every
pan direction, so zoom(0) = 1 and zoom(1) = zoomFactor for zoom-in and for
zoom-out alike; the adjusted rectangle is scaled by 1 / zoom. -/
theorem c3_zoom_interpolation (s : EffectSettings) (src : Rect) (p : ℚ)
    (he : s.kenBurnsEnabled = true) :
    kbZoom s p = 1 + (s.zoomFactor - 1) * p ∧
    kbZoom s 0 = 1 ∧
    kbZoom s 1 = s.zoomFactor ∧
    (kenBurnsSourceRect src s p).w = src.w / kbZoom s p ∧
    (kenBurnsSourceRect src s p).h = src.h / kbZoom s p := by
  refine ⟨rfl, by simp [kbZoom], by rw [kbZoom]; ring, ?_, ?_⟩ <;>
    simp [kenBurnsSourceRect, he]

/-- Witness for C3 with the baseline settings. -/
theorem c3_witness :
    kbZoom exS (1 / 2) = 1 + (exS.zoomFactor - 1) * (1 / 2) ∧
    kbZoom exS 0 = 1 ∧
    kbZoom exS 1 = exS.zoomFactor ∧
    (kenBurnsSourceRect ⟨0, 0, 100, 100⟩ exS (1 / 2)).w
      = (⟨0, 0, 100, 100⟩ : Rect).w / kbZoom exS (1 / 2) ∧
    (kenBurnsSourceRect ⟨0, 0, 100, 100⟩ exS (1 / 2)).h
      = (⟨0, 0, 100, 100⟩ : Rect).h / kbZoom exS (1 / 2) :=
  c3_zoom_interpolation exS ⟨0, 0, 100, 100⟩ (1 / 2) rfl

/-- C10 (confirmed): with Ken Burns enabled, the pan directions random,
zoom-in and zoom-out produce identical adjusted source rectangles: the fit
source rectangle shrunk by the zoom around its center, with zero pan
offset. -/
theorem c10_zoom_directions_indistinguishable (src : Rect)
    (s : EffectSettings) (p : ℚ) (he : s.kenBurnsEnabled = true) :
    kenBurnsSourceRect src { s with panDirection := PanDirection.random } p =
      kenBurnsSourceRect src { s with panDirection := PanDirection.zoomIn } p ∧
    kenBurnsSourceRect src { s with panDirection := PanDirection.zoomOut } p =
      kenBurnsSourceRect src { s with panDirection := PanDirection.zoomIn } p ∧
    kenBurnsSourceRect src { s with panDirection := PanDirection.random } p =
      { x := src.x + (src.w - src.w / kbZoom s p) / 2
        y := src.y + (src.h - src.h / kbZoom s p) / 2
        w := src.w / kbZoom s p
        h := src.h / kbZoom s p } := by
  refine ⟨?_, ?_, ?_⟩ <;>
    simp [kenBurnsSourceRect, kbOffsetX, kbOffsetY, kbZoom, he]

/-- Witness for C10 at the baseline settings. -/
theorem c10_witness :
    kenBurnsSourceRect ⟨0, 0, 100, 100⟩
        { exS with panDirection := PanDirection.random } 1 =
      kenBurnsSourceRect ⟨0, 0, 100, 100⟩
        { exS with panDirection := PanDirection.zoomIn } 1 :=
  (c10_zoom_directions_indistinguishable ⟨0, 0, 100, 100⟩ exS 1 rfl).1

/-- Counterexample to C9: under panDirection random no concrete pan
direction is resolved at all: the rendered rectangle coincides with the
plain centered zoom of zoom-in and differs from the rectangle of every one
of the four pan directions. -/
theorem c9_counterexample :
    drawSourceRect exImg (dirS PanDirection.random) 1 =
      drawSourceRect exImg (dirS PanDirection.zoomIn) 1 ∧
    drawSourceRect exImg (dirS PanDirection.random) 1 ≠
      drawSourceRect exImg (dirS PanDirection.panLeft) 1 ∧
    drawSourceRect exImg (dirS PanDirection.random) 1 ≠
      drawSourceRect exImg (dirS PanDirection.panRight) 1 ∧
    drawSourceRect exImg (dirS PanDirection.random) 1 ≠
      drawSourceRect exImg (dirS PanDirection.panUp) 1 ∧
    drawSourceRect exImg (dirS PanDirection.random) 1 ≠
      drawSourceRect exImg (dirS PanDirection.panDown) 1 := by
  have hrand : drawSourceRect exImg (dirS PanDirection.random) 1
      = ⟨25, 25, 50, 50⟩ := by
    simp [drawSourceRect, fitSourceRect, kenBurnsSourceRect, kbOffsetX,
      kbOffsetY, kbZoom, canvasAspect, imgAspect, dirS, exS, exImg]
    norm_num
  have hzin : drawSourceRect exImg (dirS PanDirection.zoomIn) 1
      = ⟨25, 25, 50, 50⟩ := by
    simp [drawSourceRect, fitSourceRect, kenBurnsSourceRect, kbOffsetX,
      kbOffsetY, kbZoom, canvasAspect, imgAspect, dirS, exS, exImg]
    norm_num
  have hleft : drawSourceRect exImg (dirS PanDirection.panLeft) 1
      = ⟨15, 25, 50, 50⟩ := by
    simp [drawSourceRect, fitSourceRect, kenBurnsSourceRect, kbOffsetX,
      kbOffsetY, kbZoom, canvasAspect, imgAspect, dirS, exS, exImg]
    norm_num
  have hright : drawSourceRect exImg (dirS PanDirection.panRight) 1
      = ⟨35, 25, 50, 50⟩ := by
    simp [drawSourceRect, fitSourceRect, kenBurnsSourceRect, kbOffsetX,
      kbOffsetY, kbZoom, canvasAspect, imgAspect, dirS, exS, exImg]
    norm_num
  have hup : drawSourceRect exImg (dirS PanDirection.panUp) 1
      = ⟨25, 15, 50, 50⟩ := by
    simp [drawSourceRect, fitSourceRect, kenBurnsSourceRect, kbOffsetX,
      kbOffsetY, kbZoom, canvasAspect, imgAspect, dirS, exS, exImg]
    norm_num
  have hdown : drawSourceRect exImg (dirS PanDirection.panDown) 1
      = ⟨25, 35, 50, 50⟩ := by
    simp [drawSourceRect, fitSourceRect, kenBurnsSourceRect, kbOffsetX,
      kbOffsetY, kbZoom, canvasAspect, imgAspect, dirS, exS, exImg]
    norm_num
  refine ⟨hrand.trans hzin.symm, ?_, ?_, ?_, ?_⟩ <;>
    rw [hrand] <;> first
    | (rw [hleft]; intro h; exact absurd (congrArg Rect.x h) (by norm_num))
    | (rw [hright]; intro h; exact absurd (congrArg Rect.x h) (by norm_num))
    | (rw [hup]; intro h; exact absurd (congrArg Rect.y h) (by norm_num))
    | (rw [hdown]; intro h; exact absurd (congrArg Rect.y h) (by norm_num))

/-- C9 (corrected): for panDirection random the code applies no pan: the
geometry is a deterministic function of the image pixel size, the settings
and the progress alone, independent of the image identifier, with both pan
offsets identically zero; the motion of one image therefore never changes
across frames or repeated renders. -/
theorem c9_random_is_center_zoom (img1 img2 : Img) (s : EffectSettings)
    (p : ℚ) (hd : s.panDirection = PanDirection.random)
    (hw : img1.width = img2.width) (hh : img1.height = img2.height) :
    drawSourceRect img1 s p = drawSourceRect img2 s p ∧
    kbOffsetX s (1 / 10 * (fitSourceRect img1 s).w) p = 0 ∧
    kbOffsetY s (1 / 10 * (fitSourceRect img1 s).w) p = 0 := by
  have hfit : fitSourceRect img1 s = fitSourceRect img2 s := by
    simp only [fitSourceRect, imgAspect, hw, hh]
  refine ⟨by simp [drawSourceRect, hfit], ?_, ?_⟩ <;>
    simp [kbOffsetX, kbOffsetY, hd]

/-- Witness for C9 with two distinct image ids of the same pixel size. -/
theorem c9_witness :
    drawSourceRect exImg exS 1 = drawSourceRect exImg2 exS 1 ∧
    kbOffsetX exS (1 / 10 * (fitSourceRect exImg exS).w) 1 = 0 ∧
    kbOffsetY exS (1 / 10 * (fitSourceRect exImg exS).w) 1 = 0 :=
  c9_random_is_center_zoom exImg exImg2 exS 1 rfl rfl rfl

/-- Counterexample to C4: with contain fit, pan-left, zoomFactor 11/10 and
progress 1, the adjusted source rectangle starts at x = -60/11, outside the
original image bounds: no clamping is performed. -/
theorem c4_counterexample :
    fitSourceRect exImg panLeftContainS = ⟨0, 0, 100, 100⟩ ∧
    (drawSourceRect exImg panLeftContainS 1).x < 0 := by
  constructor
  · simp [fitSourceRect, panLeftContainS, exS, exImg]
  · simp [drawSourceRect, fitSourceRect, kenBurnsSourceRect, kbOffsetX,
      kbOffsetY, kbZoom, canvasAspect, imgAspect, panLeftContainS, exS, exImg]
    norm_num

/-- C4 (corrected): the pan offsets are bounded in magnitude by
0.1 * sWidth (the code uses the fit source width for both axes), and for
the non-pan directions the adjusted rectangle stays inside the original fit
source rectangle; no clamping exists for the pan directions, which can
escape the bounds (see the counterexample). -/
theorem c4_pan_bound_and_center_containment (src : Rect)
    (s : EffectSettings) (p : ℚ) (hp0 : 0 ≤ p) (hp1 : p ≤ 1)
    (hw : 0 ≤ src.w) (hh : 0 ≤ src.h) (hz : 1 ≤ s.zoomFactor) :
    |kbOffsetX s (1 / 10 * src.w) p| ≤ 1 / 10 * src.w ∧
    |kbOffsetY s (1 / 10 * src.w) p| ≤ 1 / 10 * src.w ∧
    (s.kenBurnsEnabled = true →
      (s.panDirection = PanDirection.random ∨
        s.panDirection = PanDirection.zoomIn ∨
        s.panDirection = PanDirection.zoomOut) →
      src.x ≤ (kenBurnsSourceRect src s p).x ∧
      (kenBurnsSourceRect src s p).x + (kenBurnsSourceRect src s p).w ≤
        src.x + src.w ∧
      src.y ≤ (kenBurnsSourceRect src s p).y ∧
      (kenBurnsSourceRect src s p).y + (kenBurnsSourceRect src s p).h ≤
        src.y + src.h) := by
  have hmp : 0 ≤ 1 / 10 * src.w := by positivity
  have hbound : |1 / 10 * src.w * p| ≤ 1 / 10 * src.w := by
    rw [abs_of_nonneg (by positivity)]
    nlinarith
  have hcases : ∀ q : ℚ,
      q = 0 ∨ q = -(1 / 10 * src.w * p) ∨ q = 1 / 10 * src.w * p →
      |q| ≤ 1 / 10 * src.w := by
    rintro q (rfl | rfl | rfl)
    · rw [abs_zero]
      exact hmp
    · rw [abs_neg]
      exact hbound
    · exact hbound
  refine ⟨?_, ?_, ?_⟩
  · refine hcases _ ?_
    cases hpd : s.panDirection <;> simp [kbOffsetX, hpd]
  · refine hcases _ ?_
    cases hpd : s.panDirection <;> simp [kbOffsetY, hpd]
  · intro he hdir
    have hz1 : 1 ≤ kbZoom s p := by
      rw [kbZoom]
      nlinarith
    have hzpos : 0 < kbZoom s p := lt_of_lt_of_le zero_lt_one hz1
    have hdivw : src.w / kbZoom s p ≤ src.w := div_le_self hw hz1
    have hdivwnn : 0 ≤ src.w / kbZoom s p := div_nonneg hw hzpos.le
    have hdivh : src.h / kbZoom s p ≤ src.h := div_le_self hh hz1
    have hdivhnn : 0 ≤ src.h / kbZoom s p := div_nonneg hh hzpos.le
    have hoX : kbOffsetX s (1 / 10 * src.w) p = 0 := by
      rcases hdir with h | h | h <;> simp [kbOffsetX, h]
    have hoY : kbOffsetY s (1 / 10 * src.w) p = 0 := by
      rcases hdir with h | h | h <;> simp [kbOffsetY, h]
    simp only [kenBurnsSourceRect, he, if_true, hoX, hoY, add_zero]
    refine ⟨by linarith, by linarith, by linarith, by linarith⟩

/-- Witness for C4 at the baseline settings and the unit square scaled to
100: offsets vanish and the centered zoom stays inside the source. -/
theorem c4_witness :
    |kbOffsetX exS (1 / 10 * (⟨0, 0, 100, 100⟩ : Rect).w) 1| ≤
      1 / 10 * (⟨0, 0, 100, 100⟩ : Rect).w ∧
    |kbOffsetY exS (1 / 10 * (⟨0, 0, 100, 100⟩ : Rect).w) 1| ≤
      1 / 10 * (⟨0, 0, 100, 100⟩ : Rect).w ∧
    (exS.kenBurnsEnabled = true →
      (exS.panDirection = PanDirection.random ∨
        exS.panDirection = PanDirection.zoomIn ∨
        exS.panDirection = PanDirection.zoomOut) →
      (⟨0, 0, 100, 100⟩ : Rect).x ≤
        (kenBurnsSourceRect ⟨0, 0, 100, 100⟩ exS 1).x ∧
      (kenBurnsSourceRect ⟨0, 0, 100, 100⟩ exS 1).x +
          (kenBurnsSourceRect ⟨0, 0, 100, 100⟩ exS 1).w ≤
        (⟨0, 0, 100, 100⟩ : Rect).x + (⟨0, 0, 100, 100⟩ : Rect).w ∧
      (⟨0, 0, 100, 100⟩ : Rect).y ≤
        (kenBurnsSourceRect ⟨0, 0, 100, 100⟩ exS 1).y ∧
      (kenBurnsSourceRect ⟨0, 0, 100, 100⟩ exS 1).y +
          (kenBurnsSourceRect ⟨0, 0, 100, 100⟩ exS 1).h ≤
        (⟨0, 0, 100, 100⟩ : Rect).y + (⟨0, 0, 100, 100⟩ : Rect).h) :=
  c4_pan_bound_and_center_containment ⟨0, 0, 100, 100⟩ exS 1 (by decide)
    (by decide) (by decide) (by decide) (by decide)

/-- Counterexample to C1: with two images, durationPerImage 5 and
transitionDuration 1, the point 19/2 lies inside [0, totalDuration) = [0, 11)
but in neither display window ([0, 6) and [4, 9)), and the two consecutive
windows overlap by 2, twice the transition duration. -/
theorem c1_counterexample :
    (0 : ℚ) ≤ 19 / 2 ∧ (19 : ℚ) / 2 < totalDuration exS 2 ∧
    ¬ inWindow exS 2 (19 / 2) 0 ∧ ¬ inWindow exS 2 (19 / 2) 1 ∧
    displayEnd exS 2 0 - displayStart exS 1 = 2 * exS.transitionDuration ∧
    2 * exS.transitionDuration ≠ exS.transitionDuration := by
  refine ⟨by norm_num, by norm_num [totalDuration, exS], ?_, ?_,
    by norm_num [displayStart, displayEnd, exS], by norm_num [exS]⟩ <;>
    rintro ⟨h1, h2⟩ <;> norm_num [displayStart, displayEnd, exS] at h2

/-- C1 (corrected): the display windows start at 0 and are gap-free, but
the first pair of consecutive windows overlaps by twice the transition
duration while every later pair overlaps by exactly the transition
duration; the union of the windows equals [0, totalDuration) when the
transition is 0 or there is a single image, and under-covers it otherwise:
with at least two images and a positive transition some time below
totalDuration lies in no window. -/
theorem c1_segment_windows (s : EffectSettings) (N : ℕ) (hN : 1 ≤ N)
    (hD : 0 < s.durationPerImage) (hT0 : 0 ≤ s.transitionDuration)
    (hTD : s.transitionDuration < s.durationPerImage) :
    displayStart s 0 = 0 ∧
    (∀ i, i + 1 < N → displayStart s (i + 1) ≤ displayEnd s N i) ∧
    (∀ i, i + 1 < N → displayEnd s N i - displayStart s (i + 1) =
      (if i = 0 then 2 * s.transitionDuration else s.transitionDuration)) ∧
    ((s.transitionDuration = 0 ∨ N = 1) →
      ∀ t : ℚ, 0 ≤ t → t < totalDuration s N →
        ∃ i, i < N ∧ inWindow s N t i) ∧
    (0 < s.transitionDuration → 2 ≤ N →
      ∃ t : ℚ, 0 ≤ t ∧ t < totalDuration s N ∧
        ∀ i, i < N → ¬ inWindow s N t i) := by
  have key : ∀ i, i + 1 < N →
      displayEnd s N i - displayStart s (i + 1) =
        (if i = 0 then 2 * s.transitionDuration else s.transitionDuration) := by
    intro i hi
    have hcond : i < N - 1 := by omega
    unfold displayEnd displayStart
    rw [if_pos hcond, if_pos (by omega : 0 < i + 1)]
    by_cases h0 : i = 0
    · subst h0
      rw [if_neg (by omega : ¬ (0 : ℕ) < 0), if_pos rfl]
      push_cast
      ring
    · rw [if_pos (by omega : 0 < i), if_neg h0]
      push_cast
      ring
  refine ⟨by simp [displayStart], ?_, key, ?_, ?_⟩
  · intro i hi
    have hk := key i hi
    by_cases h0 : i = 0
    · rw [if_pos h0] at hk
      linarith
    · rw [if_neg h0] at hk
      linarith
  · intro hcase t ht0 httot
    rcases hcase with hT | hN1
    · have htot : totalDuration s N = (N : ℚ) * s.durationPerImage := by
        unfold totalDuration
        split <;> simp [hT]
      rw [htot] at httot
      have hdiv0 : 0 ≤ t / s.durationPerImage := div_nonneg ht0 hD.le
      have hk0 : 0 ≤ ⌊t / s.durationPerImage⌋ := Int.floor_nonneg.mpr hdiv0
      have hkle : ((⌊t / s.durationPerImage⌋ : ℤ) : ℚ) ≤ t / s.durationPerImage :=
        Int.floor_le (t / s.durationPerImage)
      have hklt : t / s.durationPerImage < (⌊t / s.durationPerImage⌋ : ℚ) + 1 :=
        Int.lt_floor_add_one (t / s.durationPerImage)
      have hkN : ((⌊t / s.durationPerImage⌋ : ℤ) : ℚ) < (N : ℚ) := by
        calc ((⌊t / s.durationPerImage⌋ : ℤ) : ℚ) ≤ t / s.durationPerImage := hkle
        _ < (N : ℚ) := by
          rw [div_lt_iff₀ hD]
          linarith
      have hcast : (((⌊t / s.durationPerImage⌋).toNat : ℕ) : ℚ) =
          ((⌊t / s.durationPerImage⌋ : ℤ) : ℚ) := by
        exact_mod_cast congrArg (Int.cast : ℤ → ℚ) (Int.toNat_of_nonneg hk0)
      refine ⟨(⌊t / s.durationPerImage⌋).toNat, ?_, ?_, ?_⟩
      · have hzk : ⌊t / s.durationPerImage⌋ < (N : ℤ) := by exact_mod_cast hkN
        omega
      · have hstart : displayStart s (⌊t / s.durationPerImage⌋).toNat =
            (((⌊t / s.durationPerImage⌋).toNat : ℕ) : ℚ) * s.durationPerImage := by
          unfold displayStart
          rw [hT]
          simp
        rw [hstart, hcast]
        rw [← le_div_iff₀ hD]
        exact hkle
      · have hend : displayEnd s N (⌊t / s.durationPerImage⌋).toNat =
            (((⌊t / s.durationPerImage⌋).toNat : ℕ) : ℚ) * s.durationPerImage +
              s.durationPerImage := by
          unfold displayEnd displayStart
          rw [hT]
          simp
        rw [hend, hcast]
        have := (div_lt_iff₀ hD).mp hklt
        linarith
    · subst hN1
      have htot1 : totalDuration s 1 = s.durationPerImage := by
        norm_num [totalDuration]
      refine ⟨0, by omega, ?_, ?_⟩
      · simpa [displayStart] using ht0
      · have hend : displayEnd s 1 0 = s.durationPerImage := by
          norm_num [displayEnd, displayStart]
        rw [hend]
        rw [htot1] at httot
        exact httot
  · intro hTpos hN2
    refine ⟨(N : ℚ) * s.durationPerImage, by positivity, ?_, ?_⟩
    · unfold totalDuration
      rw [if_pos (by omega : 1 < N)]
      have h1 : (1 : ℚ) ≤ ((N - 1 : ℕ) : ℚ) := by
        exact_mod_cast Nat.one_le_iff_ne_zero.mpr (by omega)
      nlinarith
    · rintro i hi ⟨hs, he⟩
      have hstart_le : displayStart s i ≤ (i : ℚ) * s.durationPerImage := by
        unfold displayStart
        split <;> linarith
      rcases Nat.lt_or_ge (i + 1) N with hlt | hge
      · have hcond : i < N - 1 := by omega
        have hendeq : displayEnd s N i =
            displayStart s i + s.durationPerImage + s.transitionDuration := by
          unfold displayEnd
          rw [if_pos hcond]
        have hiN2 : (i : ℚ) ≤ (N : ℚ) - 2 := by
          have h2 : i + 2 ≤ N := by omega
          have h3 := (Nat.cast_le (α := ℚ)).mpr h2
          push_cast at h3
          linarith
        rw [hendeq] at he
        nlinarith [mul_le_mul_of_nonneg_right hiN2 hD.le]
      · have hcond : ¬ i < N - 1 := by omega
        have h0i : 0 < i := by omega
        have hendeq : displayEnd s N i = displayStart s i + s.durationPerImage := by
          unfold displayEnd
          rw [if_neg hcond, add_zero]
      
        have hstarteq : displayStart s i =
            (i : ℚ) * s.durationPerImage - s.transitionDuration := by
          unfold displayStart
          rw [if_pos h0i]
        have hicast : (i : ℚ) = (N : ℚ) - 1 := by
          have h4 : i + 1 = N := by omega
          have h5 := congrArg (Nat.cast : ℕ → ℚ) h4
          push_cast at h5
          linarith
        rw [hendeq, hstarteq, hicast] at he
        nlinarith [he, hTpos]

/-- Witness for C1: the hypotheses hold at the baseline settings with two
images, where the first window starts at zero. -/
theorem c1_witness : displayStart exS 0 = 0 :=
  (c1_segment_windows exS 2 (by omega) (by decide) (by decide) (by decide)).1

theorem totalDuration_pos (s : EffectSettings) (N : ℕ) (hN : 1 ≤ N)
    (hD : 0 < s.durationPerImage) (hT : 0 ≤ s.transitionDuration) :
    0 < totalDuration s N := by
  have h1 : (1 : ℚ) ≤ (N : ℚ) := by exact_mod_cast hN
  unfold totalDuration
  split
  · have h2 : (0 : ℚ) ≤ ((N - 1 : ℕ) : ℚ) := by positivity
    nlinarith
  · nlinarith

theorem resolve_ne_end (s : EffectSettings) (N : ℕ) (t : ℚ)
    (h : t < totalDuration s N) :
    resolve s N t ≠ FrameResolve.endOfTimeline := by
  unfold resolve
  cases hf : findSegment s N t with
  | some p => simp
  | none =>
    rw [if_neg (not_le.mpr h)]
    simp

theorem runFrames_eq_count (s : EffectSettings) (N : ℕ) :
    ∀ fuel k : ℕ, nominalFrameCount s N - k ≤ fuel →
      k < nominalFrameCount s N →
      runFrames s N fuel ((k : ℚ) * frameDuration) =
        nominalFrameCount s N - k := by
  intro fuel
  induction fuel with
  | zero => intro k h1 h2; omega
  | succ m ih =>
    intro k h1 h2
    have hkQ : (k : ℚ) < 30 * totalDuration s N := by
      exact_mod_cast Nat.lt_ceil.mp h2
    have hlt : (k : ℚ) * frameDuration / 1000 < totalDuration s N := by
      rw [frameDuration]
      rw [div_lt_iff₀ (by norm_num : (0 : ℚ) < 1000)]
      linarith
    have hres := resolve_ne_end s N ((k : ℚ) * frameDuration / 1000) hlt
    simp only [runFrames, if_neg hres]
    by_cases hcont :
        (k : ℚ) * frameDuration + frameDuration < totalDuration s N * 1000
    · rw [if_pos hcont]
      have hstep : (k : ℚ) * frameDuration + frameDuration =
          ((k + 1 : ℕ) : ℚ) * frameDuration := by
        push_cast
        ring
      have hk1Q : ((k + 1 : ℕ) : ℚ) < 30 * totalDuration s N := by
        rw [frameDuration] at hcont
        push_cast
        linarith
      have hk1 : k + 1 < nominalFrameCount s N :=
        Nat.lt_ceil.mpr hk1Q
      rw [hstep, ih (k + 1) (by omega) hk1]
      omega
    · rw [if_neg hcont]
      have hge : (30 : ℚ) * totalDuration s N ≤ ((k + 1 : ℕ) : ℚ) := by
        push_neg at hcont
        rw [frameDuration] at hcont
        push_cast
        linarith
      have hMle : nominalFrameCount s N ≤ k + 1 := Nat.ceil_le.mpr hge
      omega

/-- C8 (confirmed): every tick advances the virtual clock by the fixed step
1000 / 30 milliseconds regardless of wall time; one more frame is rendered
exactly while the advanced time stays below totalDuration in milliseconds,
the loop stops as soon as it reaches it, and from time zero the number of
rendered frames is the function nominalFrameCount of the image count and
the settings alone. -/
theorem c8_fixed_step_scheduler (s : EffectSettings) (N : ℕ) (hN : 1 ≤ N)
    (hD : 0 < s.durationPerImage) (hT : 0 ≤ s.transitionDuration) :
    frameDuration = 1000 / 30 ∧
    (∀ t : ℚ, ∀ fuel : ℕ, t / 1000 < totalDuration s N →
      totalDuration s N * 1000 ≤ t + frameDuration →
      runFrames s N (fuel + 1) t = 1) ∧
    (∀ t : ℚ, ∀ fuel : ℕ, t / 1000 < totalDuration s N →
      t + frameDuration < totalDuration s N * 1000 →
      runFrames s N (fuel + 1) t = 1 + runFrames s N fuel (t + frameDuration)) ∧
    (∀ fuel : ℕ, nominalFrameCount s N ≤ fuel →
      runFrames s N fuel 0 = nominalFrameCount s N) := by
  have htot := totalDuration_pos s N hN hD hT
  refine ⟨rfl, ?_, ?_, ?_⟩
  · intro t fuel h1 h2
    simp only [runFrames, if_neg (resolve_ne_end s N (t / 1000) h1)]
    rw [if_neg (not_lt.mpr h2)]
  · intro t fuel h1 h2
    simp only [runFrames, if_neg (resolve_ne_end s N (t / 1000) h1)]
    rw [if_pos h2]
  · intro fuel hfuel
    have hM : 0 < nominalFrameCount s N := by
      rw [nominalFrameCount, Nat.ceil_pos]
      linarith
    have h0 : ((0 : ℕ) : ℚ) * frameDuration = 0 := by norm_num
    have := runFrames_eq_count s N fuel 0 (by omega) hM
    rw [h0] at this
    simpa using this

theorem nominal_wS_eq : nominalFrameCount wS 1 = 30 := by
  norm_num [nominalFrameCount, totalDuration, wS, exS]

/-- Witness for C8: one image of one second renders exactly 30 frames. -/
theorem c8_witness : runFrames wS 1 30 0 = nominalFrameCount wS 1 :=
  (c8_fixed_step_scheduler wS 1 (by omega) (by decide)
    (by decide)).2.2.2 30 (Nat.le_of_eq nominal_wS_eq)
